import Mathlib

/-!
Verification of the Terminal Snippet Runner repository.

Shallow embedding of `runner.py` (plugin registry and dispatch loop) and of
the snippets `todo.py` and `csv_to_excel.py`, with theorems settling the
specification claims about them.
-/

/-- Lower-casing of one character, ASCII range (Python `str.lower` restricted
to ASCII, which covers every string the embedded code compares after
lowering). -/
def lowerChar (c : Char) : Char :=
  if 'A' ≤ c ∧ c ≤ 'Z' then Char.ofNat (c.toNat + 32) else c

/-- Python `str.lower`, ASCII range. -/
def pyLower (s : String) : String :=
  String.mk (s.data.map lowerChar)

/-- Python `str.strip()` with no argument: remove leading and trailing
whitespace. -/
def pyStrip (s : String) : String :=
  String.mk ((s.data.dropWhile Char.isWhitespace).reverse.dropWhile Char.isWhitespace |>.reverse)

/-- Helper for `pySplit`: walk the characters, accumulating the current word
(reversed); whitespace flushes the accumulated word, and empty pieces are
never produced. -/
def wordsAux : List Char → List Char → List String
  | [], acc => if acc.isEmpty then [] else [String.mk acc.reverse]
  | c :: cs, acc =>
    if c.isWhitespace then
      if acc.isEmpty then wordsAux cs [] else String.mk acc.reverse :: wordsAux cs []
    else wordsAux cs (c :: acc)

/-- Python `str.split()` with no argument: split on runs of whitespace,
dropping empty pieces (used to tokenize the command line, `runner.py` 107). -/
def pySplit (s : String) : List String :=
  wordsAux s.data []

/-- Numeric value of a (non-empty, all-digit) character run, most significant
digit first. -/
def digitsToNat (cs : List Char) : Nat :=
  cs.foldl (fun n c => 10 * n + (c.toNat - 48)) 0

/-- Parse of a pure ASCII digit run, `none` otherwise. -/
def pyDigits? (s : String) : Option Nat :=
  if !s.data.isEmpty && s.data.all Char.isDigit then some (digitsToNat s.data) else none

/-- Decimal digits of a natural number (fuelled helper for `natRepr`; the fuel
`n + 1` always suffices). -/
def natDigits : Nat → Nat → List Char
  | 0, _ => []
  | fuel + 1, n =>
    if n < 10 then [Char.ofNat (48 + n)]
    else natDigits fuel (n / 10) ++ [Char.ofNat (48 + n % 10)]

/-- Decimal rendering of a natural number (Python `str(n)`). -/
def natRepr (n : Nat) : String :=
  String.mk (natDigits (n + 1) n)

/-- Decimal rendering of an integer (Python `str(i)`). -/
def intRepr (i : Int) : String :=
  if i < 0 then "-" ++ natRepr i.natAbs else natRepr i.natAbs

/-- Python `' '.join(parts)`. -/
def joinSpace : List String → String
  | [] => ""
  | [s] => s
  | s :: rest => s ++ " " ++ joinSpace rest

/-- Whether a string starts with the given character (Python
`str.startswith` for a single-character prefix). -/
def startsWithChar (c : Char) (s : String) : Bool :=
  match s.data with
  | [] => false
  | d :: _ => d = c

namespace Runner

/-- The observable shape of a dynamically loaded Python module, as far as the
registry's structural check (`hasattr` on `TITLE`, `DESCRIPTION`, `run`) and
the catalog entry construction are concerned.  `title?`/`description?` are
`some v` when the attribute is present with value `v`; `hasRun` records the
presence of the `run` attribute. -/
structure PyModule where
  title? : Option String
  description? : Option String
  hasRun : Bool
deriving DecidableEq, Repr

/-- What executing a candidate file's module-level code does: either it raises
an exception (syntax error or an exception from module-level code), or it
produces a module namespace. -/
inductive LoadOutcome where
  | raises (err : String)
  | loads (m : PyModule)
deriving DecidableEq, Repr

/-- A candidate `*.py` file produced by the directory glob: its file name
(e.g. `todo.py`), its stem (e.g. `todo`), and what loading it does. -/
structure PyFile where
  name : String
  stem : String
  outcome : LoadOutcome
deriving DecidableEq, Repr

/-- A catalog entry, mirroring the dict
`{'name': stem, 'title': TITLE, 'description': DESCRIPTION, 'module': module}`
appended in `SnippetRunner.load_snippets` (the module reference itself is
represented only through its observable fields). -/
structure Descriptor where
  name : String
  title : String
  description : String
deriving DecidableEq, Repr

/-- The catalog entry built from a file and its loaded module, mirroring
lines 37-42 of `runner.py`. -/
def mkDescriptor (f : PyFile) (m : PyModule) : Descriptor :=
  { name := f.stem, title := m.title?.getD "", description := m.description?.getD "" }

/-- The structural snippet-contract check of `runner.py` line 36:
`hasattr(module, 'TITLE') and hasattr(module, 'DESCRIPTION') and hasattr(module, 'run')`. -/
def hasContract (m : PyModule) : Bool :=
  m.title?.isSome && m.description?.isSome && m.hasRun

/-- The body of the per-file `try`/`except` in `load_snippets` (lines 30-44):
a raising load contributes no catalog entry and prints the diagnostic
`Error loading {file}: {err}`; a successful load contributes an entry exactly
when the structural check passes, and prints nothing. -/
def loadStep (f : PyFile) : Option Descriptor × List String :=
  match f.outcome with
  | .raises e => (none, ["Error loading " ++ f.name ++ ": " ++ e])
  | .loads m =>
    if hasContract m then (some (mkDescriptor f m), []) else (none, [])

/-- The scan loop of `load_snippets` (lines 26-44): iterate over the globbed
files in enumeration order, skip names starting with `_`, and run `loadStep`
on the rest, collecting catalog entries and printed diagnostics in order. -/
def scanFiles : List PyFile → List Descriptor × List String
  | [] => ([], [])
  | f :: fs =>
    if startsWithChar '_' f.name then scanFiles fs
    else
      ((loadStep f).1.toList ++ (scanFiles fs).1, (loadStep f).2 ++ (scanFiles fs).2)

/-- Python `<=` on strings: lexicographic comparison of the code-point
sequences. -/
def charsLe : List Char → List Char → Bool
  | [], _ => true
  | _ :: _, [] => false
  | a :: as, b :: bs =>
    if a < b then true
    else if b < a then false
    else charsLe as bs

/-- Sort key relation of `self.snippets.sort(key=lambda x: x['title'])`:
compare entries by their `title` field with Python string `<=`. -/
def titleLE (a b : Descriptor) : Prop := charsLe a.title.data b.title.data = true

instance : DecidableRel titleLE := fun a b =>
  inferInstanceAs (Decidable (charsLe a.title.data b.title.data = true))

theorem charsLe_total : ∀ as bs : List Char, charsLe as bs = true ∨ charsLe bs as = true
  | [], _ => Or.inl rfl
  | _ :: _, [] => Or.inr rfl
  | a :: as, b :: bs => by
    rcases lt_trichotomy a b with h | rfl | h
    · exact Or.inl (by simp [charsLe, h])
    · have h' := charsLe_total as bs
      simpa [charsLe, lt_irrefl] using h'
    · exact Or.inr (by simp [charsLe, h])

theorem charsLe_trans : ∀ as bs cs : List Char,
    charsLe as bs = true → charsLe bs cs = true → charsLe as cs = true
  | [], _, _, _, _ => rfl
  | _ :: _, [], _, h1, _ => by simp [charsLe] at h1
  | _ :: _, _ :: _, [], _, h2 => by simp [charsLe] at h2
  | a :: as, b :: bs, c :: cs, h1, h2 => by
    simp only [charsLe] at h1 h2 ⊢
    rcases lt_trichotomy a b with hab | rfl | hab
    · rcases lt_trichotomy b c with hbc | rfl | hbc
      · simp [lt_trans hab hbc]
      · simp [hab]
      · rw [if_neg (lt_asymm hbc), if_pos hbc] at h2
        exact absurd h2 (by simp)
    · rw [if_neg (lt_irrefl a), if_neg (lt_irrefl a)] at h1
      rcases lt_trichotomy a c with hac | rfl | hac
      · simp [hac]
      · rw [if_neg (lt_irrefl a), if_neg (lt_irrefl a)] at h2 ⊢
        exact charsLe_trans as bs cs h1 h2
      · rw [if_neg (lt_asymm hac), if_pos hac] at h2
        exact absurd h2 (by simp)
    · rw [if_neg (lt_asymm hab), if_pos hab] at h1
      exact absurd h1 (by simp)

theorem charsLe_refl : ∀ as : List Char, charsLe as as = true
  | [] => rfl
  | a :: as => by simp [charsLe, lt_irrefl, charsLe_refl as]

theorem charsLe_antisymm : ∀ as bs : List Char,
    charsLe as bs = true → charsLe bs as = true → as = bs
  | [], [], _, _ => rfl
  | [], _ :: _, _, h2 => by simp [charsLe] at h2
  | _ :: _, [], h1, _ => by simp [charsLe] at h1
  | a :: as, b :: bs, h1, h2 => by
    simp only [charsLe] at h1 h2
    rcases lt_trichotomy a b with hab | rfl | hab
    · rw [if_neg (lt_asymm hab), if_pos hab] at h2
      exact absurd h2 (by simp)
    · rw [if_neg (lt_irrefl a), if_neg (lt_irrefl a)] at h1 h2
      rw [charsLe_antisymm as bs h1 h2]
    · rw [if_neg (lt_asymm hab), if_pos hab] at h1
      exact absurd h1 (by simp)

instance : IsTotal Descriptor titleLE := ⟨fun a b => charsLe_total a.title.data b.title.data⟩

instance : IsTrans Descriptor titleLE :=
  ⟨fun a b c h h' => charsLe_trans a.title.data b.title.data c.title.data h h'⟩

/-- The snippets directory as the registry sees it: whether it exists, and the
candidate files the glob enumerates (in filesystem enumeration order). -/
structure FS where
  dirExists : Bool
  files : List PyFile
deriving DecidableEq, Repr

/-- The mutable state of the `SnippetRunner` object: its `snippets` catalog
(initialised to `[]` in `__init__`). -/
structure SnippetRunner where
  snippets : List Descriptor
deriving DecidableEq, Repr

/-- `SnippetRunner.load_snippets` (lines 18-46).  If the directory does not
exist it is created, a message is printed, and the method returns early —
note that `self.snippets` is NOT reset on this path.  Otherwise the catalog is
rebuilt from a fresh scan and sorted by title with Python's stable `list.sort`,
modelled by the stable `List.insertionSort`. -/
def load_snippets (fs : FS) (st : SnippetRunner) : SnippetRunner × FS × List String :=
  if fs.dirExists = false then
    (st, { fs with dirExists := true }, ["Creating snippets directory: snippets"])
  else
    ({ snippets := List.insertionSort titleLE (scanFiles fs.files).1 }, fs, (scanFiles fs.files).2)

/-- The catalog entry a file contributes to one scan, if any: underscore
names are skipped, then `loadStep` decides. -/
def scanEntry? (f : PyFile) : Option Descriptor :=
  if startsWithChar '_' f.name then none else (loadStep f).1

/-- The diagnostic line a file contributes to one scan, if any: only a
non-underscore file whose load raises prints one. -/
def scanDiag? (f : PyFile) : Option String :=
  if startsWithChar '_' f.name then none
  else
    match f.outcome with
    | .raises e => some ("Error loading " ++ f.name ++ ": " ++ e)
    | .loads _ => none

/-- The catalog (pre-sort) collected by one scan is exactly the per-file
entries in enumeration order. -/
theorem scanFiles_fst (files : List PyFile) :
    (scanFiles files).1 = files.filterMap scanEntry? := by
  induction files with
  | nil => rfl
  | cons f fs ih =>
    by_cases hu : startsWithChar '_' f.name
    · simp [scanFiles, scanEntry?, hu, ih, List.filterMap_cons]
    · cases hstep : (loadStep f).1 <;>
        simp [scanFiles, scanEntry?, hu, ih, List.filterMap_cons, hstep]

/-- The diagnostics printed by one scan are exactly the per-file diagnostics
in enumeration order. -/
theorem scanFiles_snd (files : List PyFile) :
    (scanFiles files).2 = files.filterMap scanDiag? := by
  induction files with
  | nil => rfl
  | cons f fs ih =>
    by_cases hu : startsWithChar '_' f.name
    · simp [scanFiles, scanDiag?, hu, ih, List.filterMap_cons]
    · cases houtcome : f.outcome with
      | raises e => simp [scanFiles, scanDiag?, loadStep, hu, ih, List.filterMap_cons, houtcome]
      | loads m =>
        by_cases hc : hasContract m <;>
          simp [scanFiles, scanDiag?, loadStep, hu, ih, List.filterMap_cons, houtcome, hc]

/-- Characterisation of the entry a single file contributes. -/
theorem scanEntry?_eq_some {f : PyFile} {d : Descriptor} :
    scanEntry? f = some d ↔
      startsWithChar '_' f.name = false ∧
        ∃ m, f.outcome = .loads m ∧ hasContract m = true ∧ d = mkDescriptor f m := by
  unfold scanEntry? loadStep
  by_cases hu : startsWithChar '_' f.name
  · simp [hu]
  · cases houtcome : f.outcome with
    | raises e => simp [hu, houtcome]
    | loads m =>
      by_cases hc : hasContract m
      · simp only [if_neg hu, houtcome, if_pos hc, Option.some_inj]
        constructor
        · intro h
          exact ⟨Bool.eq_false_iff.mpr hu, m, rfl, hc, h.symm⟩
        · rintro ⟨-, m', hm', -, rfl⟩
          cases hm'
          rfl
      · simp only [if_neg hu, houtcome, if_neg hc]
        constructor
        · intro h
          exact Option.noConfusion h
        · rintro ⟨-, m', hm', hc', -⟩
          cases hm'
          exact absurd hc' hc

/-- Membership in the post-load catalog, for an existing directory. -/
theorem mem_catalog_iff {files : List PyFile} {st : SnippetRunner} {d : Descriptor} :
    d ∈ (load_snippets ⟨true, files⟩ st).1.snippets ↔
      ∃ f ∈ files, startsWithChar '_' f.name = false ∧
        ∃ m, f.outcome = .loads m ∧ hasContract m = true ∧ d = mkDescriptor f m := by
  show d ∈ List.insertionSort titleLE (scanFiles files).1 ↔ _
  rw [List.mem_insertionSort, scanFiles_fst, List.mem_filterMap]
  constructor
  · rintro ⟨f, hf, hsome⟩
    exact ⟨f, hf, scanEntry?_eq_some.mp hsome⟩
  · rintro ⟨f, hf, h⟩
    exact ⟨f, hf, scanEntry?_eq_some.mpr h⟩

/-- Strings with equal code-point sequences are equal. -/
theorem string_eq_of_data_eq {s t : String} (h : s.data = t.data) : s = t := by
  cases s
  cases t
  exact congrArg String.mk (by simpa using h)

/-- Fixture: a well-formed snippet file (all three contract attributes). -/
def alphaFile : PyFile := ⟨"alpha.py", "alpha", .loads ⟨some "Apple Tool", some "ad", true⟩⟩

/-- Fixture: the catalog entry `alphaFile` produces. -/
def alphaDesc : Descriptor := ⟨"alpha", "Apple Tool", "ad"⟩

/-- Fixture: a file that loads fine but lacks the `run` attribute. -/
def betaNoRunFile : PyFile := ⟨"beta.py", "beta", .loads ⟨some "Beta Tool", some "bd", false⟩⟩

/-- Fixture: a file whose load raises. -/
def gammaRaisesFile : PyFile := ⟨"gamma.py", "gamma", .raises "boom"⟩

/-- Fixture: a well-formed file titled `Zebra Tool`. -/
def zebraFile : PyFile := ⟨"zeta.py", "zeta", .loads ⟨some "Zebra Tool", some "zd", true⟩⟩

/-- Fixture: first of two files with identical titles. -/
def sameTitleFile1 : PyFile := ⟨"a1.py", "a1", .loads ⟨some "Same Title", some "d1", true⟩⟩

/-- Fixture: second of two files with identical titles. -/
def sameTitleFile2 : PyFile := ⟨"a2.py", "a2", .loads ⟨some "Same Title", some "d2", true⟩⟩

/-- What a snippet's `run(args)` entry point does on a given token list:
return normally or raise an exception carrying a message. -/
inductive RunResult where
  | ok
  | raises (msg : String)
deriving DecidableEq, Repr

/-- The inner `try`/`except Exception` around `snippet['module'].run(args)`
(`runner.py` 110-113): a normal return prints nothing, a raised exception is
caught there and converted to the printed line `\n❌ Error: {e}`. -/
def dispatch (rn : List String → RunResult) (args : List String) : List String :=
  match rn args with
  | .ok => []
  | .raises e => ["\n❌ Error: " ++ e]

/-- How the `Running` sub-loop of `run_snippet` ends: `returns b` models the
Python method returning `b` (`True` = back to menu, `False` = quit);
`outOfInput` models the operator input being exhausted; `uncaught m` models a
snippet exception escaping the loop — the loop as written never produces it. -/
inductive LoopResult where
  | returns (b : Bool)
  | outOfInput
  | uncaught (msg : String)
deriving DecidableEq, Repr

/-- The `while True` command sub-loop of `SnippetRunner.run_snippet`
(`runner.py` 96-127), driven by the list of lines the operator types.  Each
iteration consumes one command line; after a dispatch, one further line is
consumed as the `What next?` answer.  The output trace collects the
error-reporting prints (prompt text and separators are not part of the trace).
Operator interrupts are not modelled (inputs are plain lines). -/
def runLoop (rn : List String → RunResult) : List String → LoopResult × List String
  | [] => (.outOfInput, [])
  | line :: rest =>
    let command := pyStrip line
    if pyLower command ∈ (["back", "b", "exit"] : List String) then (.returns true, [])
    else if command = "" then runLoop rn rest
    else
      let errOut := dispatch rn (pySplit command)
      match rest with
      | [] => (.outOfInput, errOut)
      | na :: rest2 =>
        let a := pyLower (pyStrip na)
        if a ∈ (["b", "back", "m", "menu"] : List String) then (.returns true, errOut)
        else if a ∈ (["q", "quit", "exit"] : List String) then (.returns false, errOut)
        else ((runLoop rn rest2).1, errOut ++ (runLoop rn rest2).2)

/-- A loaded snippet as the dispatch loop uses it: title, description, and the
behaviour of its `run` entry point. -/
structure Snippet where
  title : String
  description : String
  run : List String → RunResult

/-- `SnippetRunner.run_snippet` (lines 87-129): print the title and
description, then enter the command sub-loop. -/
def run_snippet (sn : Snippet) (inputs : List String) : LoopResult × List String :=
  ((runLoop sn.run inputs).1, [sn.title, sn.description] ++ (runLoop sn.run inputs).2)

end Runner

namespace Todo

/-- One todo record, mirroring the dict
`{'title', 'status', 'priority', 'date'}` of `snippets/todo.py`.
Priorities are Python ints, so `Int` (tokens parsed by the code itself are
digit runs, hence non-negative, but the JSON store may hold any int). -/
structure TodoItem where
  title : String
  status : String
  priority : Int
  date : String
deriving DecidableEq, Repr

/-- The persisted `snippets/data/todos.json` file: absent, present but
unreadable/unparseable as JSON, or holding a list of records. -/
inductive TodoFile where
  | missing
  | corrupt
  | stored (todos : List TodoItem)
deriving DecidableEq, Repr

/-- `load_todos` (`todo.py` 56-64): a missing file yields `[]`; a read or
JSON-parse failure is swallowed by `except Exception: return []`. -/
def load_todos : TodoFile → List TodoItem
  | .missing => []
  | .corrupt => []
  | .stored ts => ts

/-- `save_todos` (`todo.py` 66-69): the file is rewritten whole with the given
records. -/
def save_todos (ts : List TodoItem) : TodoFile := .stored ts

/-- The fixed status normalisation table (`todo.py` 46-54). -/
def status_map (s : String) : Option String :=
  if s = "todo" then some "todo"
  else if s = "progress" then some "in progress"
  else if s = "in-progress" then some "in progress"
  else if s = "inprogress" then some "in progress"
  else if s = "done" then some "completed"
  else if s = "completed" then some "completed"
  else if s = "complete" then some "completed"
  else none

/-- Python `str.isdigit` restricted to ASCII digit runs: non-empty and all
characters `0`-`9` (the non-ASCII digit classes Python also accepts are not
modelled). -/
def isdigit (s : String) : Bool :=
  !s.data.isEmpty && s.data.all Char.isDigit

/-- Value of `int(s)` on a token that `isdigit` accepts. -/
def digitVal (s : String) : Int :=
  ((pyDigits? s).getD 0 : Nat)

/-- Python `int(s)` under `try`/`except ValueError` (`todo.py` 164-168,
198-201): optional surrounding whitespace, optional sign, then a digit run;
anything else is `none` (the caught `ValueError`).  Underscore digit
separators are not modelled. -/
def pyInt? (s : String) : Option Int :=
  match (pyStrip s).data with
  | '-' :: rest => (pyDigits? (String.mk rest)).map (fun n => -(n : Int))
  | '+' :: rest => (pyDigits? (String.mk rest)).map (fun n => (n : Int))
  | _ => (pyDigits? (pyStrip s)).map (fun n => (n : Int))

/-- Python `str.strip(c)`: remove every leading and trailing occurrence of the
character `c`. -/
def stripChar (c : Char) (s : String) : String :=
  String.mk (((s.data.dropWhile (fun x => x = c)).reverse.dropWhile (fun x => x = c)).reverse)

/-- `title.strip('"').strip("'")` (`todo.py` 139). -/
def stripQuotes (s : String) : String :=
  stripChar '\'' (stripChar '"' s)

/-- The `while priority in used_priorities: priority += 1` loop of
`get_next_priority` (`todo.py` 99-101), with explicit fuel; the fuel chosen in
`get_next_priority` is provably sufficient. -/
def nextFree (used : List Int) : Nat → Int → Int
  | 0, p => p
  | fuel + 1, p => if p ∈ used then nextFree used fuel (p + 1) else p

/-- `get_next_priority` (`todo.py` 94-102): `1` for an empty store, otherwise
the first integer from `1` upward not among the used priorities. -/
def get_next_priority (todos : List TodoItem) : Int :=
  if todos.isEmpty then 1
  else nextFree (todos.map (fun t => t.priority)) (todos.length + 1) 1

/-- The record shift of the explicit-priority `add` branch (`todo.py`
130-132): every record with priority `≥ p` moves up by one. -/
def shiftTodo (p : Int) (t : TodoItem) : TodoItem :=
  if p ≤ t.priority then { t with priority := t.priority + 1 } else t

/-- Sort relation of `todos.sort(key=lambda x: x['priority'])`. -/
def prioLE (a b : TodoItem) : Prop := a.priority ≤ b.priority

instance : DecidableRel prioLE := fun a b => inferInstanceAs (Decidable (a.priority ≤ b.priority))

instance : IsTotal TodoItem prioLE := ⟨fun a b => le_total a.priority b.priority⟩

instance : IsTrans TodoItem prioLE := ⟨fun _ _ _ h h' => le_trans h h'⟩

/-- The find-and-update loop of the `status` branch (`todo.py` 177-183): the
first record with the given priority gets the new status; the result also
carries that record's old status for the report line.  `none` models
`found = False`. -/
def setFirstStatus (p : Int) (ns : String) : List TodoItem → Option (List TodoItem × String)
  | [] => none
  | t :: ts =>
    if t.priority = p then some ({ t with status := ns } :: ts, t.status)
    else
      match setFirstStatus p ns ts with
      | none => none
      | some (ts', old) => some (t :: ts', old)

/-- `show_todos` (`todo.py` 71-92) as the sequence of displayed lines; column
padding, the header/footer rules and the status emoji are not reproduced, only
the per-record fields in display order. -/
def show_todos (ts : List TodoItem) : List String :=
  if ts.isEmpty then ["\n📋 No todos yet! Add one with: add <title> [priority]"]
  else ts.map (fun t =>
    intRepr t.priority ++ " " ++ t.title ++ " " ++ t.date ++ " " ++ t.status)

/-- Report lines of a successful `add` (`todo.py` 153-155); the shifted note
appears when some record now has a larger priority than the inserted one. -/
def addedMsgs (p : Int) (title : String) (todos' : List TodoItem) : List String :=
  ["✅ Added todo [Priority " ++ intRepr p ++ "]: " ++ title] ++
    (if todos'.any (fun t => p < t.priority) then ["   (Shifted lower priority items down)"] else [])

/-- The command logic of the snippet's `run(args)` entry point
(`todo.py` 104-220), as a function of the loaded record list `todos`
(the `todos = load_todos()` of line 111) and of the current wall-clock date
string `now` (for `datetime.now().strftime`).  The first component is
`some ts'` when the branch ends in `save_todos(ts')` and `none` when it
returns without saving; the second is the printed report/error lines. -/
def runCore (now : String) (args : List String) (todos : List TodoItem) :
    Option (List TodoItem) × List String :=
  match args with
  | [] =>
    (none, ["❌ Error: No command specified",
            "Usage: list | add <title> [priority] | status <priority> <status> | remove <priority>"])
  | a0 :: rest =>
    let command := pyLower a0
    if command = "list" then
      (none, show_todos todos)
    else if command = "add" then
      match rest with
      | [] => (none, ["❌ Error: Missing title", "Usage: add <title> [priority]"])
      | r0 :: rs =>
        if !rs.isEmpty && isdigit ((r0 :: rs).getLast (List.cons_ne_nil r0 rs)) then
          let p := digitVal ((r0 :: rs).getLast (List.cons_ne_nil r0 rs))
          let title := stripQuotes (joinSpace ((r0 :: rs).dropLast))
          let todos' := List.insertionSort prioLE
            (todos.map (shiftTodo p) ++ [⟨title, "todo", p, now⟩])
          (some todos', addedMsgs p title todos')
        else
          let p := get_next_priority todos
          let title := stripQuotes (joinSpace (r0 :: rs))
          let todos' := List.insertionSort prioLE (todos ++ [⟨title, "todo", p, now⟩])
          (some todos', addedMsgs p title todos')
    else if command = "status" then
      match rest with
      | [pTok, sTok] =>
        match pyInt? pTok with
        | none => (none, ["❌ Error: Invalid priority '" ++ pTok ++ "'"])
        | some p =>
          match status_map (pyLower sTok) with
          | none => (none, ["❌ Error: Invalid status '" ++ sTok ++ "'",
                            "Valid statuses: todo | progress | done"])
          | some ns =>
            match setFirstStatus p ns todos with
            | none => (none, ["❌ Error: Todo with priority " ++ intRepr p ++ " not found"])
            | some (todos', old) =>
              (some todos',
               ["✅ Updated todo [Priority " ++ intRepr p ++ "]: " ++ old ++ " → " ++ ns])
      | _ => (none, ["❌ Error: Expected <priority> <status>", "Usage: status <priority> <status>",
                     "Status: todo | progress | done"])
    else if command = "remove" then
      match rest with
      | [pTok] =>
        match pyInt? pTok with
        | none => (none, ["❌ Error: Invalid priority '" ++ pTok ++ "'"])
        | some p =>
          let todos' := todos.filter (fun t => t.priority != p)
          if todos'.length = todos.length then
            (none, ["❌ Error: Todo with priority " ++ intRepr p ++ " not found"])
          else
            (some todos', ["✅ Removed todo [Priority " ++ intRepr p ++ "]"])
      | _ => (none, ["❌ Error: Expected <priority>", "Usage: remove <priority>"])
    else
      (none, ["❌ Error: Unknown command '" ++ command ++ "'",
              "Available commands: list | add | status | remove"])

/-- The snippet's `run(args)` entry point (`todo.py` 34-220): load the store,
run the command logic, and rewrite the file exactly when the command called
`save_todos` (every path of the Python code saves at most once, so the
load-once/save-at-most-once factoring through `runCore` is exact). -/
def todoRun (now : String) (args : List String) (file : TodoFile) : TodoFile × List String :=
  match runCore now args (load_todos file) with
  | (none, out) => (file, out)
  | (some ts', out) => (save_todos ts', out)

end Todo

namespace Csv

/-- The `delimiter_map` dict of `snippets/csv_to_excel.py` (lines 55-64). -/
def delimiter_map (s : String) : Option String :=
  if s = "tab" then some "\t"
  else if s = "comma" then some ","
  else if s = "," then some ","
  else if s = "semicolon" then some ";"
  else if s = ";" then some ";"
  else if s = "pipe" then some "|"
  else if s = "|" then some "|"
  else if s = "space" then some " "
  else none

/-- `delimiter_map.get(delimiter_arg.lower(), delimiter_arg)` (line 66): a
symbolic name resolves through the table, anything else stands for itself. -/
def resolveDelimiter (arg : String) : String :=
  (delimiter_map (pyLower arg)).getD arg

/-- How far `run` of `csv_to_excel.py` gets before touching any input: the
argument-count check (lines 42-48), then delimiter resolution and the
single-character validation (lines 50-71); only past both does it enter the
`try` block that reads the input (line 73 onward), modelled here by the
`readPhase` outcome carrying the resolved delimiter. -/
inductive CsvOutcome where
  | argCountError
  | invalidDelimiter (resolved : String)
  | readPhase (input output delimiter : String)
deriving DecidableEq, Repr

/-- The pre-I/O prefix of the snippet's `run(args)` entry point
(`csv_to_excel.py` 36-71): validate the argument count, default the delimiter
to `tab` when absent, resolve it, and validate its length before any read. -/
def csvRun (args : List String) : CsvOutcome :=
  if args.length < 2 ∨ args.length > 3 then .argCountError
  else
    let input := args.headD ""
    let output := (args.drop 1).headD ""
    let delimiter_arg := if args.length = 3 then (args.drop 2).headD "" else "tab"
    let delimiter := resolveDelimiter delimiter_arg
    if delimiter.length ≠ 1 then .invalidDelimiter delimiter
    else .readPhase input output delimiter

end Csv

/-- C2: In every directory scan, a candidate that loads without error but
lacks any of `TITLE`, `DESCRIPTION` or `run` contributes no catalog entry and
no diagnostic line, while every candidate exposing all three is included: a
descriptor is in the post-load catalog exactly when some non-underscore file
loads a module passing the structural check and produces it, and the printed
diagnostics come only from files whose load raises; concretely, a directory
with one well-formed snippet and one file missing `run` yields the singleton
catalog holding the well-formed one. -/
theorem claim_C2_structural_filter :
    (∀ (files : List Runner.PyFile) (st : Runner.SnippetRunner) (d : Runner.Descriptor),
        d ∈ (Runner.load_snippets ⟨true, files⟩ st).1.snippets ↔
          ∃ f ∈ files, startsWithChar '_' f.name = false ∧
            ∃ m, f.outcome = .loads m ∧ Runner.hasContract m = true ∧
              d = Runner.mkDescriptor f m) ∧
    (∀ (files : List Runner.PyFile) (st : Runner.SnippetRunner),
        (Runner.load_snippets ⟨true, files⟩ st).2.2 = files.filterMap Runner.scanDiag?) ∧
    (Runner.load_snippets ⟨true, [Runner.alphaFile, Runner.betaNoRunFile]⟩ ⟨[]⟩).1.snippets
        = [Runner.alphaDesc] := by
  refine ⟨fun files st d => Runner.mem_catalog_iff, fun files st => ?_, by decide⟩
  show (Runner.scanFiles files).2 = _
  exact Runner.scanFiles_snd files

/-- C3: A candidate whose load raises is skipped after printing a diagnostic
naming the failing file and the error, and the scan continues with the
remaining candidates; concretely, a directory with one raising file and one
well-formed file yields a catalog of size 1 plus the diagnostic, and the load
operation still returns (the host does not terminate). -/
theorem claim_C3_load_error_isolated :
    (∀ (f : Runner.PyFile) (e : String) (rest : List Runner.PyFile),
        f.outcome = .raises e → startsWithChar '_' f.name = false →
        (Runner.scanFiles (f :: rest)).1 = (Runner.scanFiles rest).1 ∧
        (Runner.scanFiles (f :: rest)).2
          = ("Error loading " ++ f.name ++ ": " ++ e) :: (Runner.scanFiles rest).2) ∧
    (Runner.load_snippets ⟨true, [Runner.gammaRaisesFile, Runner.alphaFile]⟩ ⟨[]⟩).1.snippets
        = [Runner.alphaDesc] ∧
    (Runner.load_snippets ⟨true, [Runner.gammaRaisesFile, Runner.alphaFile]⟩ ⟨[]⟩).2.2
        = ["Error loading gamma.py: boom"] := by
  refine ⟨fun f e rest hout hname => ?_, by decide, by decide⟩
  constructor <;> simp [Runner.scanFiles, Runner.loadStep, hout, hname]

/-- Witness for C3 at a concrete raising file. -/
theorem claim_C3_witness :
    (Runner.scanFiles [Runner.gammaRaisesFile]).1 = (Runner.scanFiles []).1 ∧
    (Runner.scanFiles [Runner.gammaRaisesFile]).2
      = ("Error loading " ++ "gamma.py" ++ ": " ++ "boom") :: (Runner.scanFiles []).2 :=
  claim_C3_load_error_isolated.1 Runner.gammaRaisesFile "boom" [] rfl rfl

/-- C4: After every load (of an existing directory) the catalog is a
permutation of the scanned entries, sorted by title; any two entries at
positions `i < j` with distinct titles satisfy `title i < title j` strictly
(the lexicographically smaller title comes first, whatever the enumeration
order was), and any two scanned entries with identical titles are both
retained in their original enumeration order (stability). -/
theorem claim_C4_sorted_stable :
    ∀ (files : List Runner.PyFile) (st : Runner.SnippetRunner),
      ((Runner.load_snippets ⟨true, files⟩ st).1.snippets).Perm (Runner.scanFiles files).1 ∧
      ((Runner.load_snippets ⟨true, files⟩ st).1.snippets).Sorted Runner.titleLE ∧
      (∀ i j : Fin ((Runner.load_snippets ⟨true, files⟩ st).1.snippets).length,
          i < j →
          (((Runner.load_snippets ⟨true, files⟩ st).1.snippets).get i).title ≠
            (((Runner.load_snippets ⟨true, files⟩ st).1.snippets).get j).title →
          Runner.titleLE (((Runner.load_snippets ⟨true, files⟩ st).1.snippets).get i)
              (((Runner.load_snippets ⟨true, files⟩ st).1.snippets).get j) ∧
            ¬ Runner.titleLE (((Runner.load_snippets ⟨true, files⟩ st).1.snippets).get j)
              (((Runner.load_snippets ⟨true, files⟩ st).1.snippets).get i)) ∧
      (∀ a b : Runner.Descriptor, [a, b].Sublist (Runner.scanFiles files).1 →
          a.title = b.title →
          [a, b].Sublist ((Runner.load_snippets ⟨true, files⟩ st).1.snippets)) := by
  intro files st
  have hs : ((Runner.load_snippets ⟨true, files⟩ st).1.snippets).Sorted Runner.titleLE :=
    List.sorted_insertionSort Runner.titleLE (Runner.scanFiles files).1
  refine ⟨List.perm_insertionSort Runner.titleLE (Runner.scanFiles files).1, hs,
    fun i j hij hne => ?_, fun a b hsub heq => ?_⟩
  · have hle := hs.rel_get_of_lt hij
    refine ⟨hle, fun hle' => hne ?_⟩
    exact Runner.string_eq_of_data_eq (Runner.charsLe_antisymm _ _ hle hle')
  · refine List.pair_sublist_insertionSort ?_ hsub
    show Runner.charsLe a.title.data b.title.data = true
    rw [heq]
    exact Runner.charsLe_refl _

/-- Witness for C4: two scanned entries with identical titles are retained in
enumeration order in the sorted catalog. -/
theorem claim_C4_witness :
    [⟨"a1", "Same Title", "d1"⟩, ⟨"a2", "Same Title", "d2"⟩].Sublist
      ((Runner.load_snippets ⟨true, [Runner.sameTitleFile1, Runner.sameTitleFile2]⟩
          ⟨[]⟩).1.snippets) :=
  (claim_C4_sorted_stable [Runner.sameTitleFile1, Runner.sameTitleFile2] ⟨[]⟩).2.2.2
    ⟨"a1", "Same Title", "d1"⟩ ⟨"a2", "Same Title", "d2"⟩ (List.Sublist.refl _) rfl

/-- C5 counterexample: with a non-empty catalog from an earlier load and a
missing directory, `load_snippets` creates the directory but the catalog is
NOT empty afterwards (the early return skips the `self.snippets = []` reset),
refuting the claim that an empty catalog results. -/
theorem claim_C5_counterexample :
    ¬ ((Runner.load_snippets ⟨false, []⟩ ⟨[Runner.alphaDesc]⟩).1.snippets = []) := by
  decide

/-- C5 (amended): when the snippets directory does not exist, every load
creates it, prints the creation message, and returns with the catalog left
exactly as it was before the call — hence empty on a session's first load,
where `__init__` initialised it to `[]`, but unchanged (possibly non-empty)
on later loads. -/
theorem claim_C5_mkdir_keeps_catalog (fs : Runner.FS) (st : Runner.SnippetRunner)
    (h : fs.dirExists = false) :
    (Runner.load_snippets fs st).2.1.dirExists = true ∧
    (Runner.load_snippets fs st).1 = st ∧
    (Runner.load_snippets fs st).2.2 = ["Creating snippets directory: snippets"] := by
  simp [Runner.load_snippets, h]

/-- Witness for the amended C5 on a session's first load. -/
theorem claim_C5_witness :
    (Runner.load_snippets ⟨false, []⟩ ⟨[]⟩).2.1.dirExists = true ∧
    (Runner.load_snippets ⟨false, []⟩ ⟨[]⟩).1 = ⟨[]⟩ ∧
    (Runner.load_snippets ⟨false, []⟩ ⟨[]⟩).2.2 = ["Creating snippets directory: snippets"] :=
  claim_C5_mkdir_keeps_catalog ⟨false, []⟩ ⟨[]⟩ rfl

/-- The command sub-loop never lets a snippet exception escape: its result is
never `uncaught`, whatever the snippet's entry point does. -/
theorem Runner.runLoop_no_uncaught (rn : List String → Runner.RunResult) :
    ∀ (inputs : List String) (m : String), (Runner.runLoop rn inputs).1 ≠ .uncaught m
  | [], m => by simp [Runner.runLoop]
  | [line], m => by
    by_cases h1 : pyLower (pyStrip line) ∈ (["back", "b", "exit"] : List String)
    · simp [Runner.runLoop, h1]
    · by_cases h2 : pyStrip line = ""
      · have hstep : Runner.runLoop rn [line] = Runner.runLoop rn [] := by
          simp only [Runner.runLoop]
          rw [if_neg h1, if_pos h2]
        rw [hstep]
        exact Runner.runLoop_no_uncaught rn [] m
      · simp [Runner.runLoop, h1, h2]
  | line :: na :: rest2, m => by
    by_cases h1 : pyLower (pyStrip line) ∈ (["back", "b", "exit"] : List String)
    · simp [Runner.runLoop, h1]
    · by_cases h2 : pyStrip line = ""
      · have hstep : Runner.runLoop rn (line :: na :: rest2) = Runner.runLoop rn (na :: rest2) := by
          rw [Runner.runLoop, if_neg h1, if_pos h2]
        rw [hstep]
        exact Runner.runLoop_no_uncaught rn (na :: rest2) m
      · by_cases h3 : pyLower (pyStrip na) ∈ (["b", "back", "m", "menu"] : List String)
        · simp [Runner.runLoop, h1, h2, h3]
        · by_cases h4 : pyLower (pyStrip na) ∈ (["q", "quit", "exit"] : List String)
          · simp [Runner.runLoop, h1, h2, h3, h4]
          · simpa [Runner.runLoop, h1, h2, h3, h4] using Runner.runLoop_no_uncaught rn rest2 m

/-- C1: No exception raised by a snippet's `run` entry point terminates the
host: the sub-loop (and `run_snippet`) never ends in an uncaught state, and
when a dispatched command makes the entry point raise, the exception is
caught exactly at the dispatch call site, the error line `\n❌ Error: {e}` is
printed, and the loop continues to the post-run prompt, honouring
`back`/`quit`/anything-else as usual. -/
theorem claim_C1_dispatch_isolation :
    (∀ (rn : List String → Runner.RunResult) (inputs : List String) (m : String),
        (Runner.runLoop rn inputs).1 ≠ .uncaught m) ∧
    (∀ (sn : Runner.Snippet) (inputs : List String) (m : String),
        (Runner.run_snippet sn inputs).1 ≠ .uncaught m) ∧
    (∀ (rn : List String → Runner.RunResult) (line e : String) (rest : List String),
        pyLower (pyStrip line) ∉ (["back", "b", "exit"] : List String) →
        pyStrip line ≠ "" →
        rn (pySplit (pyStrip line)) = .raises e →
        ("\n❌ Error: " ++ e) ∈ (Runner.runLoop rn (line :: rest)).2 ∧
        (rest = [] →
          Runner.runLoop rn (line :: rest) = (.outOfInput, ["\n❌ Error: " ++ e])) ∧
        (∀ na rest2, rest = na :: rest2 →
          (pyLower (pyStrip na) ∈ (["b", "back", "m", "menu"] : List String) →
            Runner.runLoop rn (line :: rest) = (.returns true, ["\n❌ Error: " ++ e])) ∧
          (pyLower (pyStrip na) ∉ (["b", "back", "m", "menu"] : List String) →
            pyLower (pyStrip na) ∈ (["q", "quit", "exit"] : List String) →
            Runner.runLoop rn (line :: rest) = (.returns false, ["\n❌ Error: " ++ e])) ∧
          (pyLower (pyStrip na) ∉ (["b", "back", "m", "menu"] : List String) →
            pyLower (pyStrip na) ∉ (["q", "quit", "exit"] : List String) →
            Runner.runLoop rn (line :: rest) =
              ((Runner.runLoop rn rest2).1,
                ("\n❌ Error: " ++ e) :: (Runner.runLoop rn rest2).2)))) := by
  refine ⟨fun rn inputs m => Runner.runLoop_no_uncaught rn inputs m,
    fun sn inputs m => Runner.runLoop_no_uncaught sn.run inputs m,
    fun rn line e rest h1 h2 h3 => ?_⟩
  have herr : Runner.dispatch rn (pySplit (pyStrip line)) = ["\n❌ Error: " ++ e] := by
    simp [Runner.dispatch, h3]
  cases rest with
  | nil =>
    refine ⟨?_, fun _ => ?_, fun na rest2 hc => by cases hc⟩ <;>
      simp [Runner.runLoop, h1, h2, herr]
  | cons na rest2 =>
    by_cases h4 : pyLower (pyStrip na) ∈ (["b", "back", "m", "menu"] : List String)
    · refine ⟨?_, ?_, ?_⟩
      · simp [Runner.runLoop, h1, h2, h4, herr]
      · intro hc
        exact absurd hc (List.cons_ne_nil na rest2)
      · intro na' rest2' hc
        injection hc with ha hb
        subst ha
        subst hb
        exact ⟨fun _ => by simp [Runner.runLoop, h1, h2, h4, herr],
          fun hn _ => absurd h4 hn, fun hn _ => absurd h4 hn⟩
    · by_cases h5 : pyLower (pyStrip na) ∈ (["q", "quit", "exit"] : List String)
      · refine ⟨?_, ?_, ?_⟩
        · simp [Runner.runLoop, h1, h2, h4, h5, herr]
        · intro hc
          exact absurd hc (List.cons_ne_nil na rest2)
        · intro na' rest2' hc
          injection hc with ha hb
          subst ha
          subst hb
          exact ⟨fun hy => absurd hy h4, fun _ _ => by simp [Runner.runLoop, h1, h2, h4, h5, herr],
            fun _ hn => absurd h5 hn⟩
      · refine ⟨?_, ?_, ?_⟩
        · simp [Runner.runLoop, h1, h2, h4, h5, herr]
        · intro hc
          exact absurd hc (List.cons_ne_nil na rest2)
        · intro na' rest2' hc
          injection hc with ha hb
          subst ha
          subst hb
          exact ⟨fun hy => absurd hy h4, fun _ hy => absurd hy h5,
            fun _ _ => by simp [Runner.runLoop, h1, h2, h4, h5, herr]⟩

/-- Witness for C1: a snippet that always raises, dispatched once, prints the
error and the loop then honours `q` at the post-run prompt. -/
theorem claim_C1_witness :
    ("\n❌ Error: " ++ "kaput")
      ∈ (Runner.runLoop (fun _ => .raises "kaput") ["cmd", "q"]).2 :=
  (claim_C1_dispatch_isolation.2.2 (fun _ => .raises "kaput") "cmd" "kaput" ["q"]
    (by decide) (by decide) rfl).1

/-- The last element of `l ++ [a]` is `a`. -/
theorem getLast_append_single {α : Type} : ∀ (l : List α) (a : α) (h : l ++ [a] ≠ []),
    (l ++ [a]).getLast h = a
  | [], _, _ => rfl
  | x :: l, a, _ => by
    cases l with
    | nil => rfl
    | cons y l' =>
      show (y :: (l' ++ [a])).getLast (by simp) = a
      exact getLast_append_single (y :: l') a (by simp)

/-- Dropping the last element of `l ++ [a]` gives back `l`. -/
theorem dropLast_append_single {α : Type} (l : List α) (a : α) : (l ++ [a]).dropLast = l := by
  simp

/-- Adequacy of the fuel in `nextFree`: as long as some candidate within the
fuel range is unused, the loop returns the smallest unused value at or above
the start. -/
theorem Todo.nextFree_spec (used : List Int) :
    ∀ (fuel : Nat) (start : Int),
      (∃ k : Nat, k < fuel ∧ (start + k) ∉ used) →
      Todo.nextFree used fuel start ∉ used ∧ start ≤ Todo.nextFree used fuel start ∧
        ∀ q : Int, start ≤ q → q < Todo.nextFree used fuel start → q ∈ used
  | 0, start, h => by
    obtain ⟨k, hk, -⟩ := h
    exact absurd hk (Nat.not_lt_zero k)
  | fuel + 1, start, h => by
    by_cases hs : start ∈ used
    · have hex : ∃ k : Nat, k < fuel ∧ (start + 1 + k) ∉ used := by
        obtain ⟨k, hk, hku⟩ := h
        match k with
        | 0 => exact absurd hs (by simpa using hku)
        | k' + 1 =>
          refine ⟨k', Nat.lt_of_succ_lt_succ hk, ?_⟩
          have harith : start + 1 + (k' : Int) = start + ((k' + 1 : Nat) : Int) := by
            push_cast
            ring
          rw [harith]
          exact hku
      obtain ⟨hni, hle, hall⟩ := Todo.nextFree_spec used fuel (start + 1) hex
      have hval : Todo.nextFree used (fuel + 1) start = Todo.nextFree used fuel (start + 1) := by
        simp [Todo.nextFree, hs]
      refine ⟨by rw [hval]; exact hni, by rw [hval]; omega, ?_⟩
      intro q hq hq'
      rw [hval] at hq'
      rcases eq_or_lt_of_le hq with rfl | h'
      · exact hs
      · exact hall q (by omega) hq'
    · have hval : Todo.nextFree used (fuel + 1) start = start := by simp [Todo.nextFree, hs]
      rw [hval]
      exact ⟨hs, le_refl start, fun q hq hq' => absurd hq' (not_lt.mpr hq)⟩

/-- Pigeonhole: among the `n + 1` candidates `1, …, n + 1` at least one is
missing from a list of `n` integers. -/
theorem Todo.exists_unused (used : List Int) :
    ∃ k : Nat, k < used.length + 1 ∧ ((1 : Int) + k) ∉ used := by
  by_contra hcon
  push_neg at hcon
  have hsub : Finset.Icc (1 : Int) (used.length + 1) ⊆ used.toFinset := by
    intro q hq
    rw [Finset.mem_Icc] at hq
    obtain ⟨hq1, hq2⟩ := hq
    have hklt : (q - 1).toNat < used.length + 1 := by omega
    have hmem := hcon (q - 1).toNat hklt
    rw [List.mem_toFinset]
    have heq : (1 : Int) + ((q - 1).toNat : Int) = q := by omega
    rwa [heq] at hmem
  have hcard := Finset.card_le_card hsub
  rw [Int.card_Icc] at hcard
  have h2 : (((used.length : Int) + 1) + 1 - 1).toNat = used.length + 1 := by omega
  rw [h2] at hcard
  have h3 := used.toFinset_card_le
  omega

/-- Specification of `get_next_priority`: the returned priority is positive,
unused, and every smaller positive value is already in use. -/
theorem Todo.get_next_priority_spec (ts : List Todo.TodoItem) :
    1 ≤ Todo.get_next_priority ts ∧
    Todo.get_next_priority ts ∉ ts.map (fun t => t.priority) ∧
    ∀ q : Int, 1 ≤ q → q < Todo.get_next_priority ts → q ∈ ts.map (fun t => t.priority) := by
  by_cases hts : ts.isEmpty
  · have hnil : ts = [] := List.isEmpty_iff.mp hts
    subst hnil
    refine ⟨le_refl 1, by simp [Todo.get_next_priority], ?_⟩
    intro q hq hq'
    have : Todo.get_next_priority [] = 1 := rfl
    rw [this] at hq'
    exact absurd hq' (not_lt.mpr hq)
  · have hex : ∃ k : Nat, k < ts.length + 1 ∧ ((1 : Int) + k) ∉ ts.map (fun t => t.priority) := by
      have := Todo.exists_unused (ts.map fun t => t.priority)
      rwa [List.length_map] at this
    obtain ⟨hni, hle, hall⟩ :=
      Todo.nextFree_spec (ts.map fun t => t.priority) (ts.length + 1) 1 hex
    have hval : Todo.get_next_priority ts
        = Todo.nextFree (ts.map fun t => t.priority) (ts.length + 1) 1 := by
      simp [Todo.get_next_priority, hts]
    rw [hval]
    exact ⟨hle, hni, fun q h1 h2 => hall q h1 h2⟩

/-- Priorities after the explicit-priority shift are the pointwise-shifted
priorities. -/
theorem Todo.map_priority_shift (p : Int) (ts : List Todo.TodoItem) :
    (ts.map (Todo.shiftTodo p)).map (fun t => t.priority)
      = (ts.map (fun t => t.priority)).map (fun q => if p ≤ q then q + 1 else q) := by
  induction ts with
  | nil => rfl
  | cons t ts ih =>
    simp only [List.map_cons, ih, Todo.shiftTodo]
    by_cases h : p ≤ t.priority <;> simp [h]

/-- The priority shift is injective. -/
theorem Todo.shift_fun_injective (p : Int) :
    Function.Injective (fun q : Int => if p ≤ q then q + 1 else q) := by
  intro a b hab
  simp only at hab
  split_ifs at hab <;> omega

/-- No shifted priority equals the inserted priority. -/
theorem Todo.shift_ne_p (p q : Int) : (if p ≤ q then q + 1 else q) ≠ p := by
  split_ifs with h <;> omega

/-- The status-update search fails exactly on stores with no matching
priority. -/
theorem Todo.setFirstStatus_none (p : Int) (ns : String) :
    ∀ {ts : List Todo.TodoItem}, (∀ t ∈ ts, t.priority ≠ p) →
      Todo.setFirstStatus p ns ts = none := by
  intro ts
  induction ts with
  | nil => intro _; rfl
  | cons t ts ih =>
    intro hall
    have ht : t.priority ≠ p := hall t (List.mem_cons_self t ts)
    have hrest := ih (fun u hu => hall u (List.mem_cons_of_mem t hu))
    simp [Todo.setFirstStatus, ht, hrest]

/-- A successful status update leaves every record's priority unchanged. -/
theorem Todo.setFirstStatus_map_priority (p : Int) (ns : String) :
    ∀ {ts ts' : List Todo.TodoItem} {old : String},
      Todo.setFirstStatus p ns ts = some (ts', old) →
      ts'.map (fun t => t.priority) = ts.map (fun t => t.priority) := by
  intro ts
  induction ts with
  | nil => intro ts' old h; cases h
  | cons t ts ih =>
    intro ts' old h
    by_cases ht : t.priority = p
    · simp only [Todo.setFirstStatus, if_pos ht] at h
      obtain ⟨rfl, -⟩ := Prod.mk.injEq .. ▸ Option.some.inj h
      simp
    · simp only [Todo.setFirstStatus, if_neg ht] at h
      cases hrec : Todo.setFirstStatus p ns ts with
      | none => rw [hrec] at h; cases h
      | some pair =>
        rw [hrec] at h
        obtain ⟨ts'', old'⟩ := pair
        obtain ⟨rfl, -⟩ := Prod.mk.injEq .. ▸ Option.some.inj h
        simp [ih hrec]

/-- The status-update search finds the first matching record and updates just
its status, returning the old status. -/
theorem Todo.setFirstStatus_found (p : Int) (ns : String) :
    ∀ (l1 : List Todo.TodoItem) (t : Todo.TodoItem) (l2 : List Todo.TodoItem),
      t.priority = p → (∀ u ∈ l1, u.priority ≠ p) →
      Todo.setFirstStatus p ns (l1 ++ t :: l2)
        = some (l1 ++ { t with status := ns } :: l2, t.status) := by
  intro l1
  induction l1 with
  | nil =>
    intro t l2 ht _
    simp [Todo.setFirstStatus, ht]
  | cons u l1 ih =>
    intro t l2 ht hall
    have hu : u.priority ≠ p := hall u (List.mem_cons_self u l1)
    have hrec := ih t l2 ht (fun v hv => hall v (List.mem_cons_of_mem u hv))
    simp [Todo.setFirstStatus, hu, hrec]

/-- Filtering away a priority that never occurs leaves the store unchanged. -/
theorem Todo.filter_ne_of_all (p : Int) {ts : List Todo.TodoItem}
    (h : ∀ t ∈ ts, t.priority ≠ p) :
    ts.filter (fun t => t.priority != p) = ts := by
  rw [List.filter_eq_self]
  intro t ht
  simpa using h t ht

/-- With a unique match, the remove filter deletes exactly that record. -/
theorem Todo.filter_remove_found (p : Int) (l1 : List Todo.TodoItem) (t : Todo.TodoItem)
    (l2 : List Todo.TodoItem) (ht : t.priority = p)
    (hothers : ∀ u ∈ l1 ++ l2, u.priority ≠ p) :
    (l1 ++ t :: l2).filter (fun u => u.priority != p) = l1 ++ l2 := by
  have h1 : l1.filter (fun u => u.priority != p) = l1 :=
    Todo.filter_ne_of_all p (fun u hu => hothers u (List.mem_append_left _ hu))
  have h2 : l2.filter (fun u => u.priority != p) = l2 :=
    Todo.filter_ne_of_all p (fun u hu => hothers u (List.mem_append_right _ hu))
  simp [List.filter_append, List.filter_cons, ht, h1, h2]

/-- Unfolding of the explicit-priority `add` branch: with a non-empty list of
title tokens followed by a digit token, every stored record with priority at
or above the parsed value is shifted up by one and the new record is inserted
at that value, the result sorted by priority and saved. -/
theorem Todo.runCore_add_explicit (now : String) (tt : List String) (pTok : String)
    (todos : List Todo.TodoItem) (h1 : tt ≠ []) (h2 : Todo.isdigit pTok = true) :
    Todo.runCore now ("add" :: (tt ++ [pTok])) todos =
      (some (List.insertionSort Todo.prioLE
          (todos.map (Todo.shiftTodo (Todo.digitVal pTok))
            ++ [⟨Todo.stripQuotes (joinSpace tt), "todo", Todo.digitVal pTok, now⟩])),
        Todo.addedMsgs (Todo.digitVal pTok) (Todo.stripQuotes (joinSpace tt))
          (List.insertionSort Todo.prioLE
            (todos.map (Todo.shiftTodo (Todo.digitVal pTok))
              ++ [⟨Todo.stripQuotes (joinSpace tt), "todo", Todo.digitVal pTok, now⟩]))) := by
  obtain ⟨t0, tt', rfl⟩ := List.exists_cons_of_ne_nil h1
  have e1 : (t0 :: (tt' ++ [pTok])).getLast (List.cons_ne_nil t0 (tt' ++ [pTok])) = pTok :=
    getLast_append_single (t0 :: tt') pTok (by simp)
  have e2 : (t0 :: (tt' ++ [pTok])).dropLast = t0 :: tt' :=
    dropLast_append_single (t0 :: tt') pTok
  have e3 : (tt' ++ [pTok]).isEmpty = false := by simp
  simp only [Todo.runCore, List.cons_append, e1, e2, e3, h2]
  rfl

/-- Unfolding of the automatic-priority `add` branch: with title tokens whose
last token is not a digit run (or a single token), the new record gets the
smallest unused positive priority, the result sorted by priority and saved. -/
theorem Todo.runCore_add_auto (now : String) (rest : List String)
    (todos : List Todo.TodoItem) (h1 : rest ≠ [])
    (h2 : rest.length = 1 ∨ Todo.isdigit (rest.getLast h1) = false) :
    Todo.runCore now ("add" :: rest) todos =
      (some (List.insertionSort Todo.prioLE
          (todos ++ [⟨Todo.stripQuotes (joinSpace rest), "todo",
            Todo.get_next_priority todos, now⟩])),
        Todo.addedMsgs (Todo.get_next_priority todos) (Todo.stripQuotes (joinSpace rest))
          (List.insertionSort Todo.prioLE
            (todos ++ [⟨Todo.stripQuotes (joinSpace rest), "todo",
              Todo.get_next_priority todos, now⟩]))) := by
  obtain ⟨r0, rs, rfl⟩ := List.exists_cons_of_ne_nil h1
  have hcond : (!rs.isEmpty && Todo.isdigit ((r0 :: rs).getLast (List.cons_ne_nil r0 rs)))
      = false := by
    rcases h2 with hlen | hdig
    · have : rs = [] := by
        cases rs with
        | nil => rfl
        | cons x xs => simp at hlen
      subst this
      rfl
    · simp [hdig]
  simp only [Todo.runCore, hcond]
  rfl

/-- Unfolding of the `status` branch with a well-formed priority and status
but no matching record: not-found error, nothing saved. -/
theorem Todo.runCore_status_notfound (now pTok sTok : String) (p : Int) (ns : String)
    (todos : List Todo.TodoItem) (hp : Todo.pyInt? pTok = some p)
    (hs : Todo.status_map (pyLower sTok) = some ns)
    (hnone : ∀ t ∈ todos, t.priority ≠ p) :
    Todo.runCore now ["status", pTok, sTok] todos
      = (none, ["❌ Error: Todo with priority " ++ intRepr p ++ " not found"]) := by
  have hset := Todo.setFirstStatus_none p ns hnone
  simp only [Todo.runCore, hp, hs, hset]
  rfl

/-- Unfolding of the `status` branch when a record matches: the first matching
record's status is replaced, everything else untouched, the result saved, and
the report names old and new status. -/
theorem Todo.runCore_status_found (now pTok sTok : String) (p : Int) (ns : String)
    (l1 : List Todo.TodoItem) (t : Todo.TodoItem) (l2 : List Todo.TodoItem)
    (hp : Todo.pyInt? pTok = some p) (hs : Todo.status_map (pyLower sTok) = some ns)
    (ht : t.priority = p) (hl1 : ∀ u ∈ l1, u.priority ≠ p) :
    Todo.runCore now ["status", pTok, sTok] (l1 ++ t :: l2)
      = (some (l1 ++ { t with status := ns } :: l2),
         ["✅ Updated todo [Priority " ++ intRepr p ++ "]: " ++ t.status ++ " → " ++ ns]) := by
  have hset := Todo.setFirstStatus_found p ns l1 t l2 ht hl1
  simp only [Todo.runCore, hp, hs, hset]
  rfl

/-- Unfolding of the `remove` branch with no matching record: not-found error,
nothing saved. -/
theorem Todo.runCore_remove_notfound (now pTok : String) (p : Int)
    (todos : List Todo.TodoItem) (hp : Todo.pyInt? pTok = some p)
    (hnone : ∀ t ∈ todos, t.priority ≠ p) :
    Todo.runCore now ["remove", pTok] todos
      = (none, ["❌ Error: Todo with priority " ++ intRepr p ++ " not found"]) := by
  have hfil := Todo.filter_ne_of_all p hnone
  simp only [Todo.runCore, hp, hfil]
  rfl

/-- Unfolding of the `remove` branch when exactly one record matches: exactly
that record is deleted and the result saved. -/
theorem Todo.runCore_remove_found (now pTok : String) (p : Int)
    (l1 : List Todo.TodoItem) (t : Todo.TodoItem) (l2 : List Todo.TodoItem)
    (hp : Todo.pyInt? pTok = some p) (ht : t.priority = p)
    (hothers : ∀ u ∈ l1 ++ l2, u.priority ≠ p) :
    Todo.runCore now ["remove", pTok] (l1 ++ t :: l2)
      = (some (l1 ++ l2), ["✅ Removed todo [Priority " ++ intRepr p ++ "]"]) := by
  have hfil := Todo.filter_remove_found p l1 t l2 ht hothers
  have hlen : (l1 ++ l2).length ≠ (l1 ++ t :: l2).length := by
    simp only [List.length_append, List.length_cons]
    omega
  simp only [Todo.runCore, hp, hfil, if_neg hlen]
  rfl

/-- Every saving branch of `runCore` produces one of four store shapes:
explicit-priority insert (shift then append then sort), automatic-priority
insert (append then sort), a first-match status update, or a priority
filter. -/
theorem Todo.runCore_some_shape (now : String) (args : List String)
    (todos ts' : List Todo.TodoItem) (out : List String)
    (h : Todo.runCore now args todos = (some ts', out)) :
    (∃ p new, (new : Todo.TodoItem).priority = p ∧
        ts' = List.insertionSort Todo.prioLE (todos.map (Todo.shiftTodo p) ++ [new])) ∨
    (∃ new, (new : Todo.TodoItem).priority = Todo.get_next_priority todos ∧
        ts' = List.insertionSort Todo.prioLE (todos ++ [new])) ∨
    (∃ p ns old, Todo.setFirstStatus p ns todos = some (ts', old)) ∨
    (∃ p, ts' = todos.filter (fun t => t.priority != p)) := by
  cases args with
  | nil => simp [Todo.runCore] at h
  | cons a0 rest =>
    by_cases cl : pyLower a0 = "list"
    · simp [Todo.runCore, cl] at h
    · by_cases ca : pyLower a0 = "add"
      · cases rest with
        | nil => simp [Todo.runCore, cl, ca] at h
        | cons r0 rs =>
          by_cases c3 : (!rs.isEmpty
              && Todo.isdigit ((r0 :: rs).getLast (List.cons_ne_nil r0 rs))) = true
          · simp only [Todo.runCore, ca] at h
            simp [c3] at h
            obtain ⟨h1, -⟩ := h
            subst h1
            exact Or.inl ⟨Todo.digitVal ((r0 :: rs).getLast (List.cons_ne_nil r0 rs)),
              ⟨Todo.stripQuotes (joinSpace ((r0 :: rs).dropLast)), "todo",
                Todo.digitVal ((r0 :: rs).getLast (List.cons_ne_nil r0 rs)), now⟩, rfl, rfl⟩
          · simp only [Todo.runCore, ca] at h
            simp [c3] at h
            obtain ⟨h1, -⟩ := h
            subst h1
            exact Or.inr (Or.inl ⟨⟨Todo.stripQuotes (joinSpace (r0 :: rs)), "todo",
              Todo.get_next_priority todos, now⟩, rfl, rfl⟩)
      · by_cases cs : pyLower a0 = "status"
        · rcases rest with - | ⟨x, - | ⟨y, - | ⟨z, zs⟩⟩⟩
          · simp [Todo.runCore, cl, ca, cs] at h
          · simp [Todo.runCore, cl, ca, cs] at h
          · rcases hp : Todo.pyInt? x with - | p
            · simp [Todo.runCore, cl, ca, cs, hp] at h
            · rcases hsm : Todo.status_map (pyLower y) with - | ns
              · simp [Todo.runCore, cl, ca, cs, hp, hsm] at h
              · rcases hset : Todo.setFirstStatus p ns todos with - | pair
                · simp [Todo.runCore, cl, ca, cs, hp, hsm, hset] at h
                · obtain ⟨ts'', old⟩ := pair
                  simp [Todo.runCore, cl, ca, cs, hp, hsm, hset] at h
                  obtain ⟨h1, -⟩ := h
                  subst h1
                  exact Or.inr (Or.inr (Or.inl ⟨p, ns, old, hset⟩))
          · simp [Todo.runCore, cl, ca, cs] at h
        · by_cases cr : pyLower a0 = "remove"
          · rcases rest with - | ⟨x, - | ⟨y, ys⟩⟩
            · simp [Todo.runCore, cl, ca, cs, cr] at h
            · rcases hp : Todo.pyInt? x with - | p
              · simp [Todo.runCore, cl, ca, cs, cr, hp] at h
              · by_cases hlen : (todos.filter (fun t => t.priority != p)).length
                    = todos.length
                · simp [Todo.runCore, cl, ca, cs, cr, hp, hlen] at h
                · simp [Todo.runCore, cl, ca, cs, cr, hp, hlen] at h
                  obtain ⟨h1, -⟩ := h
                  subst h1
                  exact Or.inr (Or.inr (Or.inr ⟨p, rfl⟩))
            · simp [Todo.runCore, cl, ca, cs, cr] at h
          · simp [Todo.runCore, cl, ca, cs, cr] at h

/-- Any store the command logic saves has pairwise-distinct priorities,
provided the loaded store did. -/
theorem Todo.runCore_preserves_nodup (now : String) (args : List String)
    (todos ts' : List Todo.TodoItem) (out : List String)
    (h : Todo.runCore now args todos = (some ts', out))
    (hnd : (todos.map (fun t => t.priority)).Nodup) :
    (ts'.map (fun t => t.priority)).Nodup := by
  rcases Todo.runCore_some_shape now args todos ts' out h with
    ⟨p, new, hp, rfl⟩ | ⟨new, hp, rfl⟩ | ⟨p, ns, old, hset⟩ | ⟨p, rfl⟩
  · have hperm := (List.perm_insertionSort Todo.prioLE
      (todos.map (Todo.shiftTodo p) ++ [new])).map (fun t => t.priority)
    rw [hperm.nodup_iff, List.map_append, Todo.map_priority_shift]
    simp only [List.map_cons, List.map_nil, hp]
    rw [List.nodup_append]
    refine ⟨hnd.map (Todo.shift_fun_injective p), List.nodup_singleton p, ?_⟩
    intro q hq1 hq2
    rw [List.mem_singleton] at hq2
    obtain ⟨q0, -, hq0⟩ := List.mem_map.mp hq1
    rw [hq2] at hq0
    exact Todo.shift_ne_p p q0 hq0
  · have hperm := (List.perm_insertionSort Todo.prioLE (todos ++ [new])).map
      (fun t => t.priority)
    rw [hperm.nodup_iff, List.map_append]
    simp only [List.map_cons, List.map_nil, hp]
    rw [List.nodup_append]
    refine ⟨hnd, List.nodup_singleton _, ?_⟩
    intro q hq1 hq2
    rw [List.mem_singleton] at hq2
    rw [hq2] at hq1
    exact (Todo.get_next_priority_spec todos).2.1 hq1
  · rw [Todo.setFirstStatus_map_priority p ns hset]
    exact hnd
  · exact List.Nodup.sublist ((List.filter_sublist todos).map (fun t => t.priority)) hnd

/-- C7: Starting from a store whose priority values are pairwise distinct,
every terminating run of any todo command (including invalid or unknown ones)
leaves a store whose priorities are still pairwise distinct: `add` with an
explicit priority shifts all records at or above it before inserting, `add`
without one picks an unused value, `status` keeps priorities, `remove`
filters, and every other path leaves the file untouched. -/
theorem claim_C7_unique_priorities :
    ∀ (now : String) (args : List String) (file : Todo.TodoFile),
      ((Todo.load_todos file).map (fun t => t.priority)).Nodup →
      ((Todo.load_todos (Todo.todoRun now args file).1).map (fun t => t.priority)).Nodup := by
  intro now args file hnd
  rcases hrc : Todo.runCore now args (Todo.load_todos file) with ⟨o, out⟩
  cases o with
  | none =>
    have hkeep : (Todo.todoRun now args file).1 = file := by
      simp [Todo.todoRun, hrc]
    rwa [hkeep]
  | some ts' =>
    have hsave : (Todo.todoRun now args file).1 = .stored ts' := by
      simp [Todo.todoRun, Todo.save_todos, hrc]
    rw [hsave]
    exact Todo.runCore_preserves_nodup now args (Todo.load_todos file) ts' out hrc hnd

/-- Witness for C7: inserting at an occupied priority keeps priorities
distinct. -/
theorem claim_C7_witness :
    ((Todo.load_todos
        (Todo.todoRun "e" ["add", "B", "1"] (.stored [⟨"A", "todo", 1, "d"⟩])).1).map
      (fun t => t.priority)).Nodup :=
  claim_C7_unique_priorities "e" ["add", "B", "1"] (.stored [⟨"A", "todo", 1, "d"⟩])
    (by decide)

/-- C6: For an `add` with a non-empty title: when the final token is a digit
run, it is the explicit priority — every existing record with priority at or
above it is shifted up by one and the new record is inserted at that priority
(the stored result is a permutation of the shifted store plus the new
record); otherwise the smallest positive integer priority not in use is
assigned (positive, unused, and every smaller positive value is in use); the
first add into an empty store gets priority 1, and a subsequent add at
priority 1 shifts the first record to priority 2. -/
theorem claim_C6_add_priority_assignment :
    (∀ (now pTok : String) (tt : List String) (file : Todo.TodoFile),
        tt ≠ [] → Todo.isdigit pTok = true →
        (Todo.load_todos (Todo.todoRun now ("add" :: (tt ++ [pTok])) file).1).Perm
          ((Todo.load_todos file).map (Todo.shiftTodo (Todo.digitVal pTok))
            ++ [⟨Todo.stripQuotes (joinSpace tt), "todo", Todo.digitVal pTok, now⟩])) ∧
    (∀ (now : String) (rest : List String) (file : Todo.TodoFile) (h1 : rest ≠ []),
        rest.length = 1 ∨ Todo.isdigit (rest.getLast h1) = false →
        (Todo.load_todos (Todo.todoRun now ("add" :: rest) file).1).Perm
          ((Todo.load_todos file)
            ++ [⟨Todo.stripQuotes (joinSpace rest), "todo",
                 Todo.get_next_priority (Todo.load_todos file), now⟩])) ∧
    (∀ ts : List Todo.TodoItem,
        1 ≤ Todo.get_next_priority ts ∧
        Todo.get_next_priority ts ∉ ts.map (fun t => t.priority) ∧
        ∀ q : Int, 1 ≤ q → q < Todo.get_next_priority ts →
          q ∈ ts.map (fun t => t.priority)) ∧
    Todo.todoRun "d1" ["add", "A"] .missing
        = (.stored [⟨"A", "todo", 1, "d1"⟩],
           ["✅ Added todo [Priority " ++ intRepr 1 ++ "]: A"]) ∧
    (Todo.todoRun "d2" ["add", "B", "1"] (Todo.todoRun "d1" ["add", "A"] .missing).1).1
        = .stored [⟨"B", "todo", 1, "d2"⟩, ⟨"A", "todo", 2, "d1"⟩] := by
  refine ⟨fun now pTok tt file h1 h2 => ?_, fun now rest file h1 h2 => ?_,
    Todo.get_next_priority_spec, by decide, by decide⟩
  · have hrc := Todo.runCore_add_explicit now tt pTok (Todo.load_todos file) h1 h2
    have hfile : (Todo.todoRun now ("add" :: (tt ++ [pTok])) file).1
        = .stored (List.insertionSort Todo.prioLE
            ((Todo.load_todos file).map (Todo.shiftTodo (Todo.digitVal pTok))
              ++ [⟨Todo.stripQuotes (joinSpace tt), "todo", Todo.digitVal pTok, now⟩])) := by
      simp [Todo.todoRun, Todo.save_todos, hrc]
    rw [hfile]
    exact List.perm_insertionSort Todo.prioLE _
  · have hrc := Todo.runCore_add_auto now rest (Todo.load_todos file) h1 h2
    have hfile : (Todo.todoRun now ("add" :: rest) file).1
        = .stored (List.insertionSort Todo.prioLE
            ((Todo.load_todos file) ++ [⟨Todo.stripQuotes (joinSpace rest), "todo",
              Todo.get_next_priority (Todo.load_todos file), now⟩])) := by
      simp [Todo.todoRun, Todo.save_todos, hrc]
    rw [hfile]
    exact List.perm_insertionSort Todo.prioLE _

/-- Witness for C6 at a concrete explicit-priority add: the existing record
at priority 2 is shifted to 3 and the new record is inserted at 2. -/
theorem claim_C6_witness :
    (Todo.load_todos
        (Todo.todoRun "d" ("add" :: (["X"] ++ ["2"])) (.stored [⟨"A", "todo", 2, "e"⟩])).1).Perm
      ((Todo.load_todos (.stored [⟨"A", "todo", 2, "e"⟩])).map (Todo.shiftTodo (Todo.digitVal "2"))
        ++ [⟨Todo.stripQuotes (joinSpace ["X"]), "todo", Todo.digitVal "2", "d"⟩]) :=
  claim_C6_add_priority_assignment.1 "d" "2" ["X"] (.stored [⟨"A", "todo", 2, "e"⟩])
    (by decide) (by decide)

/-- C8: `status` and `remove` locate a record by exact priority match.  With
no matching record both report a not-found error and leave the file exactly
as it was (no write).  With a match (unique in the `remove` case, first in
the `status` case), `status` rewrites exactly that record's status, reporting
old and new values, and `remove` deletes exactly that record. -/
theorem claim_C8_status_remove_lookup :
    (∀ (now pTok sTok : String) (p : Int) (ns : String) (file : Todo.TodoFile),
        Todo.pyInt? pTok = some p → Todo.status_map (pyLower sTok) = some ns →
        (∀ t ∈ Todo.load_todos file, t.priority ≠ p) →
        Todo.todoRun now ["status", pTok, sTok] file
          = (file, ["❌ Error: Todo with priority " ++ intRepr p ++ " not found"])) ∧
    (∀ (now pTok : String) (p : Int) (file : Todo.TodoFile),
        Todo.pyInt? pTok = some p →
        (∀ t ∈ Todo.load_todos file, t.priority ≠ p) →
        Todo.todoRun now ["remove", pTok] file
          = (file, ["❌ Error: Todo with priority " ++ intRepr p ++ " not found"])) ∧
    (∀ (now pTok sTok : String) (p : Int) (ns : String) (file : Todo.TodoFile)
        (l1 : List Todo.TodoItem) (t : Todo.TodoItem) (l2 : List Todo.TodoItem),
        Todo.pyInt? pTok = some p → Todo.status_map (pyLower sTok) = some ns →
        Todo.load_todos file = l1 ++ t :: l2 → t.priority = p →
        (∀ u ∈ l1, u.priority ≠ p) →
        Todo.todoRun now ["status", pTok, sTok] file
          = (.stored (l1 ++ { t with status := ns } :: l2),
             ["✅ Updated todo [Priority " ++ intRepr p ++ "]: " ++ t.status ++ " → " ++ ns])) ∧
    (∀ (now pTok : String) (p : Int) (file : Todo.TodoFile)
        (l1 : List Todo.TodoItem) (t : Todo.TodoItem) (l2 : List Todo.TodoItem),
        Todo.pyInt? pTok = some p →
        Todo.load_todos file = l1 ++ t :: l2 → t.priority = p →
        (∀ u ∈ l1 ++ l2, u.priority ≠ p) →
        Todo.todoRun now ["remove", pTok] file
          = (.stored (l1 ++ l2), ["✅ Removed todo [Priority " ++ intRepr p ++ "]"])) := by
  refine ⟨fun now pTok sTok p ns file hp hs hnone => ?_,
    fun now pTok p file hp hnone => ?_,
    fun now pTok sTok p ns file l1 t l2 hp hs hload ht hl1 => ?_,
    fun now pTok p file l1 t l2 hp hload ht hothers => ?_⟩
  · have hrc := Todo.runCore_status_notfound now pTok sTok p ns (Todo.load_todos file) hp hs hnone
    simp [Todo.todoRun, hrc]
  · have hrc := Todo.runCore_remove_notfound now pTok p (Todo.load_todos file) hp hnone
    simp [Todo.todoRun, hrc]
  · have hrc : Todo.runCore now ["status", pTok, sTok] (Todo.load_todos file)
        = (some (l1 ++ { t with status := ns } :: l2),
           ["✅ Updated todo [Priority " ++ intRepr p ++ "]: " ++ t.status ++ " → " ++ ns]) := by
      rw [hload]
      exact Todo.runCore_status_found now pTok sTok p ns l1 t l2 hp hs ht hl1
    simp [Todo.todoRun, Todo.save_todos, hrc]
  · have hrc : Todo.runCore now ["remove", pTok] (Todo.load_todos file)
        = (some (l1 ++ l2), ["✅ Removed todo [Priority " ++ intRepr p ++ "]"]) := by
      rw [hload]
      exact Todo.runCore_remove_found now pTok p l1 t l2 hp ht hothers
    simp [Todo.todoRun, Todo.save_todos, hrc]

/-- Witness for C8: `status 99 done` on a store without priority 99 reports
not-found and leaves the file unchanged. -/
theorem claim_C8_witness :
    Todo.todoRun "d" ["status", "99", "done"] (.stored [⟨"B", "todo", 1, "e"⟩])
      = (.stored [⟨"B", "todo", 1, "e"⟩],
         ["❌ Error: Todo with priority " ++ intRepr 99 ++ " not found"]) :=
  claim_C8_status_remove_lookup.1 "d" "99" "done" 99 "completed"
    (.stored [⟨"B", "todo", 1, "e"⟩]) (by decide) (by decide) (by decide)

/-- The `add` branch with at least one token after `add` always saves. -/
theorem Todo.runCore_add_isSome (now r0 : String) (rs : List String)
    (todos : List Todo.TodoItem) :
    (Todo.runCore now ("add" :: r0 :: rs) todos).1.isSome = true := by
  rcases Bool.eq_false_or_eq_true
      (!rs.isEmpty && Todo.isdigit ((r0 :: rs).getLast (List.cons_ne_nil r0 rs))) with hc | hc
  · simp only [Todo.runCore, hc]
    rfl
  · simp only [Todo.runCore, hc]
    rfl

/-- C10: A todo store file that exists but cannot be read or parsed as JSON
is silently treated as an empty store: loading yields `[]`, every command
behaves (same printed output, same resulting records) exactly as on an empty
store with no error reported, and the next successful mutation (`add`)
overwrites the corrupt file with the freshly built state. -/
theorem claim_C10_corrupt_store_as_empty :
    Todo.load_todos .corrupt = [] ∧
    (∀ (now : String) (args : List String),
        (Todo.todoRun now args .corrupt).2 = (Todo.todoRun now args (.stored [])).2 ∧
        Todo.load_todos (Todo.todoRun now args .corrupt).1
          = Todo.load_todos (Todo.todoRun now args (.stored [])).1) ∧
    (∀ (now : String) (tt : List String), tt ≠ [] →
        ∃ ts, (Todo.todoRun now ("add" :: tt) .corrupt).1 = .stored ts) ∧
    (Todo.todoRun "d" ["add", "A"] .corrupt).1 = .stored [⟨"A", "todo", 1, "d"⟩] := by
  refine ⟨rfl, fun now args => ?_, fun now tt h1 => ?_, by decide⟩
  · rcases hrc : Todo.runCore now args ([] : List Todo.TodoItem) with ⟨o, out⟩
    have hc : Todo.runCore now args (Todo.load_todos .corrupt) = (o, out) := hrc
    have hs : Todo.runCore now args (Todo.load_todos (.stored [])) = (o, out) := hrc
    cases o with
    | none =>
      exact ⟨by simp [Todo.todoRun, hc, hs, hrc],
        by simp [Todo.todoRun, Todo.load_todos, hc, hs, hrc]⟩
    | some ts' =>
      exact ⟨by simp [Todo.todoRun, Todo.save_todos, hc, hs, hrc],
        by simp [Todo.todoRun, Todo.save_todos, hc, hs, hrc]⟩
  · obtain ⟨r0, rs, rfl⟩ := List.exists_cons_of_ne_nil h1
    have hsome := Todo.runCore_add_isSome now r0 rs (Todo.load_todos .corrupt)
    rcases hrc : Todo.runCore now ("add" :: r0 :: rs) (Todo.load_todos .corrupt) with ⟨o, out⟩
    rw [hrc] at hsome
    obtain ⟨ts', rfl⟩ := Option.isSome_iff_exists.mp hsome
    exact ⟨ts', by simp [Todo.todoRun, Todo.save_todos, hrc]⟩

/-- Witness for C10: an `add` on the corrupt file overwrites it with a stored
list. -/
theorem claim_C10_witness :
    ∃ ts, (Todo.todoRun "d" ("add" :: ["A"]) .corrupt).1 = .stored ts :=
  claim_C10_corrupt_store_as_empty.2.2.1 "d" ["A"] (by decide)

/-- C9: For a CSV-converter invocation with two or three arguments, the
delimiter defaults to tab when the third argument is omitted, the symbolic
names `comma`/`semicolon`/`pipe`/`space`/`tab` resolve to their single
characters, and any delimiter value resolving to more than one character
yields the invalid-delimiter failure before any input is read (the run never
reaches the read phase). -/
theorem claim_C9_csv_delimiter_validation :
    (∀ i o : String, Csv.csvRun [i, o] = .readPhase i o "\t") ∧
    (∀ i o : String,
        Csv.csvRun [i, o, "comma"] = .readPhase i o "," ∧
        Csv.csvRun [i, o, "semicolon"] = .readPhase i o ";" ∧
        Csv.csvRun [i, o, "pipe"] = .readPhase i o "|" ∧
        Csv.csvRun [i, o, "space"] = .readPhase i o " " ∧
        Csv.csvRun [i, o, "tab"] = .readPhase i o "\t") ∧
    (∀ i o d : String, 1 < (Csv.resolveDelimiter d).length →
        Csv.csvRun [i, o, d] = .invalidDelimiter (Csv.resolveDelimiter d)) := by
  refine ⟨fun i o => rfl, fun i o => ⟨rfl, rfl, rfl, rfl, rfl⟩, fun i o d h => ?_⟩
  have hne : (Csv.resolveDelimiter d).length ≠ 1 := by omega
  simp [Csv.csvRun, hne]

/-- Witness for C9: the three-character delimiter token `"x"` (with literal
quote marks, as typed on the command line) resolves to itself and is rejected
before the read phase. -/
theorem claim_C9_witness :
    Csv.csvRun ["data.csv", "out.xlsx", "\"x\""]
      = .invalidDelimiter (Csv.resolveDelimiter "\"x\"") :=
  claim_C9_csv_delimiter_validation.2.2 "data.csv" "out.xlsx" "\"x\"" (by decide)
